import Mathlib

/-!
Shallow embedding of the gsrs crate (src/lib.rs): a generic self
referencing struct SRS composing a view value (the user field) with owner
storage behind a heap pointer (AliasedBox), together with the
DerefWithLifetime retagging trait.  Machine memory is modelled by an
explicit heap of allocations; Rust references to the owner are resolved to
the owner value read from the heap at the point of the borrow, and the
lifetime retagging operations of DerefWithLifetime become maps from the
view type to itself (a transmute that only changes a lifetime tag is the
identity once lifetimes are erased).
-/

/-- Heap addresses: the values of the NonNull pointers held by AliasedBox. -/
abbrev Addr : Type := Nat

/-- Look up the value stored under a key in an association list. -/
def lookupKey {α : Type} : List (Addr × α) → Addr → Option α
  | [], _ => none
  | c :: rest, a => if c.1 = a then some c.2 else lookupKey rest a

/-- Remove every binding of a key from an association list. -/
def removeKey {α : Type} : List (Addr × α) → Addr → List (Addr × α)
  | [], _ => []
  | c :: rest, a => if c.1 = a then removeKey rest a else c :: removeKey rest a

/-- A heap of values of type alpha: the list of live allocations keyed by
address, together with the next fresh address. -/
structure Heap (α : Type) where
  cells : List (Addr × α)
  next : Addr
deriving DecidableEq

/-- The empty heap. -/
def Heap.empty {α : Type} : Heap α :=
  { cells := [], next := 0 }

/-- Dereference a pointer: read the value stored at address a, if that
address is live. -/
def Heap.read {α : Type} (h : Heap α) (a : Addr) : Option α :=
  lookupKey h.cells a

/-- Box::new: move a value onto the heap at a fresh address. -/
def Heap.alloc {α : Type} (h : Heap α) (v : α) : Heap α × Addr :=
  ({ cells := (h.next, v) :: h.cells, next := h.next + 1 }, h.next)

/-- Dropping a Box: release the allocation at address a. -/
def Heap.free {α : Type} (h : Heap α) (a : Addr) : Heap α :=
  { cells := removeKey h.cells a, next := h.next }

/-- AliasedBox from src/lib.rs: a raw NonNull pointer to a heap cell
holding the owner.  The real type exists to opt out of noalias
assumptions; observably it is the address of the owner allocation. -/
structure AliasedBox (α : Type) where
  ptr : Addr
deriving DecidableEq

/-- Deref impl of AliasedBox: read the pointed-to owner value. -/
def AliasedBox.derefBox {α : Type} (h : Heap α) (b : AliasedBox α) : Option α :=
  Heap.read h b.ptr

/-- Drop impl of AliasedBox: Box::from_raw on the stored pointer frees the
allocation. -/
def AliasedBox.dropBox {α : Type} (h : Heap α) (b : AliasedBox α) : Heap α :=
  Heap.free h b.ptr

/-- The DerefWithLifetime trait from src/lib.rs: the four lifetime
retagging operations on a view type V.  Each Rust method transmutes
between V at one lifetime and V at another; with lifetimes erased both
sides are the same Lean type, so each operation is a map from V to V. -/
structure DerefWithLifetime (V : Type) where
  deref_with_lifetime : V → V
  deref_with_lifetime_mut : V → V
  move_with_lifetime : V → V
  move_with_lifetime_back : V → V

/-- Retag-only contract of DerefWithLifetime: a conforming implementation
only changes the lifetime tag, so after lifetime erasure each of the four
operations is the identity. -/
def DerefWithLifetime.Lawful {V : Type} (d : DerefWithLifetime V) : Prop :=
  d.deref_with_lifetime = id ∧ d.deref_with_lifetime_mut = id ∧
    d.move_with_lifetime = id ∧ d.move_with_lifetime_back = id

/-- A plain borrowed reference to a value of type Z: in the embedding, the
address it points at.  Lifetime tags are erased, so references at all
lifetimes share this one type. -/
structure Ref (Z : Type) where
  ptr : Addr
deriving DecidableEq

/-- Transmute between two types that differ only in lifetime annotations:
bit-identical, hence the identity map. -/
def transmuteLifetime {V : Type} (x : V) : V := x

/-- The built-in impl of DerefWithLifetime for plain references (impl for
any reference type in src/lib.rs): every method is a transmute that only
changes the lifetime. -/
def refDerefWithLifetime (Z : Type) : DerefWithLifetime (Ref Z) :=
  { deref_with_lifetime := transmuteLifetime,
    deref_with_lifetime_mut := transmuteLifetime,
    move_with_lifetime := transmuteLifetime,
    move_with_lifetime_back := transmuteLifetime }

/-- The impl produced by the deref_with_lifetime macro for a caller view
type: each method is again a lifetime-only transmute. -/
def mkDerefWithLifetime (V : Type) : DerefWithLifetime V :=
  { deref_with_lifetime := transmuteLifetime,
    deref_with_lifetime_mut := transmuteLifetime,
    move_with_lifetime := transmuteLifetime,
    move_with_lifetime_back := transmuteLifetime }

/-- SRS from src/lib.rs: the self referencing struct, a view value (user)
declared before the owner storage (an AliasedBox pointing at the boxed
owner). -/
structure SRS (Owner V : Type) where
  user : V
  owner : AliasedBox Owner
deriving DecidableEq

/-- SRS::new: box the owner; the view starts as the Default value of the
view type. -/
def SRS.new {Owner V : Type} [Inhabited V] (h : Heap Owner) (o : Owner) :
    Heap Owner × SRS Owner V :=
  let p := Heap.alloc h o
  (p.1, { user := (default : V), owner := { ptr := p.2 } })

/-- SRS::create_with: box the owner, take owner_ref by dereferencing the
fresh AliasedBox, apply f to the (lifetime-transmuted) borrow and store
the resulting view via move_with_lifetime_back.  Reading through the
pointer is Option valued in the heap model, so the operation is too. -/
def SRS.create_with {Owner V : Type} (h : Heap Owner) (o : Owner)
    (d : DerefWithLifetime V) (f : Owner → V) :
    Option (Heap Owner × SRS Owner V) :=
  let p := Heap.alloc h o
  (Heap.read p.1 p.2).map (fun ov =>
    (p.1, { user := d.move_with_lifetime_back (f ov), owner := { ptr := p.2 } }))

/-- SRS::split: mem::swap the container's owner storage with the caller's
box slot, move the view out retagged by move_with_lifetime, and drop the
consumed container, whose owner field now holds the caller's former
replacement box, freeing that replacement allocation.  Returns the heap
after the call, the address the caller's slot now holds, and the view. -/
def SRS.split {Owner V : Type} (h : Heap Owner) (s : SRS Owner V)
    (d : DerefWithLifetime V) (slot : Addr) : Heap Owner × Addr × V :=
  (Heap.free h slot, s.owner.ptr, d.move_with_lifetime s.user)

/-- SRS::with: dereference the owner, retag the view mutably with
deref_with_lifetime_mut, run the FnOnce closure once on its captured state
env, the view, and the borrowed owner, and keep the mutated view.  The
closure returns its updated captures, the view as mutated through the
mutable borrow, and its result value. -/
def SRS.with_ {Owner V E Z : Type} (h : Heap Owner) (s : SRS Owner V)
    (d : DerefWithLifetime V) (env : E) (f : E → V → Owner → E × V × Z) :
    Option (E × SRS Owner V × Z) :=
  (Heap.read h s.owner.ptr).map (fun ow =>
    let r := f env (d.deref_with_lifetime_mut s.user) ow
    (r.1, { user := r.2.1, owner := s.owner }, r.2.2))

/-- SRS::get_ref: dereference the owner, retag the view with
deref_with_lifetime, run the closure once on the borrowed view and owner
and hand its result straight back. -/
def SRS.get_ref {Owner V R : Type} (h : Heap Owner) (s : SRS Owner V)
    (d : DerefWithLifetime V) (f : V → Owner → R) : Option R :=
  (Heap.read h s.owner.ptr).map (fun ow => f (d.deref_with_lifetime s.user) ow)

/-- Deref impl of SRS: direct read-only access to the owner value. -/
def SRS.derefOwner {Owner V : Type} (h : Heap Owner) (s : SRS Owner V) :
    Option Owner :=
  Heap.read h s.owner.ptr

/-- A region of container slots (stack variables, collection cells): each
slot may hold a whole SRS value. -/
abbrev ContainerStore (Owner V : Type) : Type := List (Nat × SRS Owner V)

/-- Read the container stored in slot i. -/
def ContainerStore.read {Owner V : Type} (st : ContainerStore Owner V)
    (i : Nat) : Option (SRS Owner V) :=
  lookupKey st i

/-- Moving a container from slot src to slot dst: the SRS bytes (the view
value and the owner pointer) are copied to dst and src is vacated.  The
owner heap is not an input, so the owner allocation cannot move. -/
def ContainerStore.moveContainer {Owner V : Type} (st : ContainerStore Owner V)
    (src dst : Nat) : ContainerStore Owner V :=
  match lookupKey st src with
  | none => st
  | some s => (dst, s) :: removeKey (removeKey st src) dst

/-! Heap lemmas. -/

/-- Reading a freshly allocated cell yields the allocated value. -/
theorem Heap.read_alloc_self {α : Type} (h : Heap α) (v : α) :
    Heap.read (Heap.alloc h v).1 (Heap.alloc h v).2 = some v := by
  simp [Heap.read, Heap.alloc, lookupKey]

/-- Looking up a key just removed finds nothing. -/
theorem lookupKey_removeKey_self {α : Type} (l : List (Addr × α)) (a : Addr) :
    lookupKey (removeKey l a) a = none := by
  induction l with
  | nil => rfl
  | cons c rest ih =>
    by_cases hc : c.1 = a
    · simpa [removeKey, hc] using ih
    · simpa [removeKey, lookupKey, hc] using ih

/-- Removing key b does not change lookups of a different key a. -/
theorem lookupKey_removeKey_ne {α : Type} (l : List (Addr × α)) (a b : Addr)
    (hab : a ≠ b) :
    lookupKey (removeKey l b) a = lookupKey l a := by
  induction l with
  | nil => rfl
  | cons c rest ih =>
    by_cases hc : c.1 = b
    · have hca : ¬ c.1 = a := fun h2 => hab (h2 ▸ hc ▸ rfl)
      simp only [removeKey]
      rw [if_pos hc]
      simp only [lookupKey, if_neg hca]
      exact ih
    · simp only [removeKey]
      rw [if_neg hc]
      by_cases hca : c.1 = a
      · simp [lookupKey, hca]
      · simp only [lookupKey, if_neg hca]
        exact ih

/-- After freeing address a, address a is dead. -/
theorem Heap.read_free_self {α : Type} (h : Heap α) (a : Addr) :
    Heap.read (Heap.free h a) a = none := by
  unfold Heap.read Heap.free
  exact lookupKey_removeKey_self h.cells a

/-- Freeing address b leaves every other address unchanged. -/
theorem Heap.read_free_ne {α : Type} (h : Heap α) (a b : Addr) (hab : a ≠ b) :
    Heap.read (Heap.free h b) a = Heap.read h a := by
  unfold Heap.read Heap.free
  exact lookupKey_removeKey_ne h.cells a b hab

/-- Reading slot dst after moving a container from src to dst yields the
container formerly in src, bytes unchanged. -/
theorem ContainerStore.read_moveContainer {Owner V : Type}
    (st : ContainerStore Owner V) (src dst : Nat) (s : SRS Owner V)
    (hsrc : ContainerStore.read st src = some s) :
    ContainerStore.read (ContainerStore.moveContainer st src dst) dst = some s := by
  unfold ContainerStore.read at hsrc ⊢
  unfold ContainerStore.moveContainer
  rw [hsrc]
  simp [lookupKey]

/-- Lawfulness of the macro-generated impl: it only transmutes lifetimes. -/
theorem mkDerefWithLifetime_lawful (V : Type) :
    (mkDerefWithLifetime V).Lawful :=
  ⟨rfl, rfl, rfl, rfl⟩

/-- A concrete owner heap for evaluation: cell 0 holds 5, cell 1 holds 9. -/
def wHeap : Heap Nat :=
  { cells := [(1, 9), (0, 5)], next := 2 }

/-- A concrete container for evaluation: view 42, owner stored in cell 0. -/
def wSRS : SRS Nat Nat :=
  { user := 42, owner := { ptr := 0 } }

/-- Claim C1: create_with stores exactly the view that f computed from the
owner (the stored view equals f applied to the stored owner, the retag
being bit-identical), and get_ref then reads back through that view,
seeing f's data together with the stored owner. -/
theorem C1_create_with_get_ref {Owner V R : Type} (h : Heap Owner) (o : Owner)
    (d : DerefWithLifetime V) (hL : d.Lawful) (f : Owner → V)
    (g : V → Owner → R) :
    (SRS.create_with h o d f).map (fun p => p.2.user) = some (f o) ∧
    (SRS.create_with h o d f).map (fun p => SRS.get_ref p.1 p.2 d g)
      = some (some (g (f o) o)) := by
  obtain ⟨h1, h2, h3, h4⟩ := hL
  constructor
  · simp [SRS.create_with, Heap.alloc, Heap.read, lookupKey, h4]
  · simp [SRS.create_with, SRS.get_ref, Heap.alloc, Heap.read, lookupKey, h1, h4]

/-- Claim C1 witness at a concrete input. -/
theorem C1_witness :
    (mkDerefWithLifetime Nat).Lawful ∧
    ((SRS.create_with Heap.empty 5 (mkDerefWithLifetime Nat)
          (fun n => n + 1)).map (fun p => p.2.user) = some 6 ∧
      (SRS.create_with Heap.empty 5 (mkDerefWithLifetime Nat)
          (fun n => n + 1)).map
          (fun p => SRS.get_ref p.1 p.2 (mkDerefWithLifetime Nat)
            (fun v ow => v + ow))
        = some (some 11)) :=
  ⟨mkDerefWithLifetime_lawful Nat,
    C1_create_with_get_ref Heap.empty 5 (mkDerefWithLifetime Nat)
      (mkDerefWithLifetime_lawful Nat) (fun n => n + 1) (fun v ow => v + ow)⟩

/-- Claim C2: split hands the container's original owner allocation to the
caller's slot with the owner value unchanged and still readable, and
returns the view value held by the container, only retagged. -/
theorem C2_split_owner_preserved {Owner V : Type} (h : Heap Owner)
    (s : SRS Owner V) (d : DerefWithLifetime V) (hL : d.Lawful) (slot : Addr)
    (o : Owner) (hlive : Heap.read h s.owner.ptr = some o)
    (hne : slot ≠ s.owner.ptr) :
    (SRS.split h s d slot).2.1 = s.owner.ptr ∧
    Heap.read (SRS.split h s d slot).1 (SRS.split h s d slot).2.1 = some o ∧
    (SRS.split h s d slot).2.2 = s.user := by
  obtain ⟨h1, h2, h3, h4⟩ := hL
  refine ⟨rfl, ?_, ?_⟩
  · show Heap.read (Heap.free h slot) s.owner.ptr = some o
    rw [Heap.read_free_ne h s.owner.ptr slot (Ne.symm hne)]
    exact hlive
  · show d.move_with_lifetime s.user = s.user
    rw [h3]
    rfl

/-- Claim C2 witness at a concrete input. -/
theorem C2_witness :
    (mkDerefWithLifetime Nat).Lawful ∧
    Heap.read wHeap wSRS.owner.ptr = some 5 ∧
    (1 : Addr) ≠ wSRS.owner.ptr ∧
    ((SRS.split wHeap wSRS (mkDerefWithLifetime Nat) 1).2.1 = wSRS.owner.ptr ∧
      Heap.read (SRS.split wHeap wSRS (mkDerefWithLifetime Nat) 1).1
          (SRS.split wHeap wSRS (mkDerefWithLifetime Nat) 1).2.1 = some 5 ∧
      (SRS.split wHeap wSRS (mkDerefWithLifetime Nat) 1).2.2 = wSRS.user) :=
  ⟨mkDerefWithLifetime_lawful Nat, by decide, by decide,
    C2_split_owner_preserved wHeap wSRS (mkDerefWithLifetime Nat)
      (mkDerefWithLifetime_lawful Nat) 1 5 (by decide) (by decide)⟩

/-- Claim C3: read-after-write consistency: a mutation made through with_
is observed by an immediately following get_ref, which sees exactly the
view value the mutation closure left behind. -/
theorem C3_with_then_get_ref {Owner V E Z R : Type} (h : Heap Owner)
    (s : SRS Owner V) (d : DerefWithLifetime V) (hL : d.Lawful) (o : Owner)
    (hlive : Heap.read h s.owner.ptr = some o) (env : E)
    (g : E → V → Owner → E × V × Z) (r : V → Owner → R) :
    (SRS.with_ h s d env g).map (fun p => SRS.get_ref h p.2.1 d r)
      = some (some (r (g env s.user o).2.1 o)) := by
  obtain ⟨h1, h2, h3, h4⟩ := hL
  simp [SRS.with_, SRS.get_ref, hlive, h1, h2]

/-- Claim C3 witness at a concrete input. -/
theorem C3_witness :
    (mkDerefWithLifetime Nat).Lawful ∧
    Heap.read wHeap wSRS.owner.ptr = some 5 ∧
    (SRS.with_ wHeap wSRS (mkDerefWithLifetime Nat) 0
          (fun e v ow => (e + 1, v + ow, v * ow))).map
        (fun p => SRS.get_ref wHeap p.2.1 (mkDerefWithLifetime Nat)
          (fun v ow => v + ow))
      = some (some 52) :=
  ⟨mkDerefWithLifetime_lawful Nat, by decide,
    C3_with_then_get_ref wHeap wSRS (mkDerefWithLifetime Nat)
      (mkDerefWithLifetime_lawful Nat) 5 (by decide) 0
      (fun e v ow => (e + 1, v + ow, v * ow)) (fun v ow => v + ow)⟩

/-- Claim C4: relocating a container copies its bytes (view value and
owner pointer) verbatim, so get_ref and with_ observe identical results
after the move, the owner address is unchanged, and the owner heap is not
even an input of the move. -/
theorem C4_move_container {Owner V E Z R : Type} (st : ContainerStore Owner V)
    (src dst : Nat) (d : DerefWithLifetime V) (h : Heap Owner) (env : E)
    (g : E → V → Owner → E × V × Z) (r : V → Owner → R) (s : SRS Owner V)
    (hsrc : ContainerStore.read st src = some s) :
    ContainerStore.read (ContainerStore.moveContainer st src dst) dst = some s ∧
    ((ContainerStore.read (ContainerStore.moveContainer st src dst) dst).map
        (fun c => SRS.get_ref h c d r))
      = ((ContainerStore.read st src).map (fun c => SRS.get_ref h c d r)) ∧
    ((ContainerStore.read (ContainerStore.moveContainer st src dst) dst).map
        (fun c => SRS.with_ h c d env g))
      = ((ContainerStore.read st src).map (fun c => SRS.with_ h c d env g)) ∧
    ((ContainerStore.read (ContainerStore.moveContainer st src dst) dst).map
        (fun c => c.owner))
      = some s.owner := by
  have hmv := ContainerStore.read_moveContainer st src dst s hsrc
  rw [hmv, hsrc]
  exact ⟨rfl, rfl, rfl, rfl⟩

/-- Claim C4 witness at a concrete input. -/
theorem C4_witness :
    ContainerStore.read [(0, wSRS)] 0 = some wSRS ∧
    (ContainerStore.read (ContainerStore.moveContainer [(0, wSRS)] 0 3) 3
        = some wSRS ∧
      ((ContainerStore.read (ContainerStore.moveContainer [(0, wSRS)] 0 3) 3).map
          (fun c => SRS.get_ref wHeap c (mkDerefWithLifetime Nat)
            (fun v ow => v + ow)))
        = ((ContainerStore.read [(0, wSRS)] 0).map
          (fun c => SRS.get_ref wHeap c (mkDerefWithLifetime Nat)
            (fun v ow => v + ow))) ∧
      ((ContainerStore.read (ContainerStore.moveContainer [(0, wSRS)] 0 3) 3).map
          (fun c => SRS.with_ wHeap c (mkDerefWithLifetime Nat) 0
            (fun e v ow => (e + 1, v + ow, v * ow))))
        = ((ContainerStore.read [(0, wSRS)] 0).map
          (fun c => SRS.with_ wHeap c (mkDerefWithLifetime Nat) 0
            (fun e v ow => (e + 1, v + ow, v * ow)))) ∧
      ((ContainerStore.read (ContainerStore.moveContainer [(0, wSRS)] 0 3) 3).map
          (fun c => c.owner))
        = some wSRS.owner) :=
  ⟨by decide,
    C4_move_container [(0, wSRS)] 0 3 (mkDerefWithLifetime Nat) wHeap 0
      (fun e v ow => (e + 1, v + ow, v * ow)) (fun v ow => v + ow) wSRS
      (by decide)⟩

/-- Claim C6: with_ invokes its closure exactly once (a call counter
threaded through the closure captures ends at one), passes it the view and
the read-only owner, returns the closure result unchanged, stores the
mutated view, and leaves the owner pointer in place; get_ref likewise only
reads, returning its closure's result on the current view and owner. -/
theorem C6_with_invokes_once {Owner V Z R : Type} (h : Heap Owner)
    (s : SRS Owner V) (d : DerefWithLifetime V) (hL : d.Lawful) (o : Owner)
    (hlive : Heap.read h s.owner.ptr = some o) (g : V → Owner → V × Z)
    (r : V → Owner → R) :
    SRS.with_ h s d (0 : Nat) (fun n v ow => (n + 1, g v ow))
      = some (1, { user := (g s.user o).1, owner := s.owner }, (g s.user o).2) ∧
    SRS.get_ref h s d r = some (r s.user o) ∧
    SRS.derefOwner h s = some o := by
  obtain ⟨h1, h2, h3, h4⟩ := hL
  refine ⟨?_, ?_, ?_⟩
  · simp [SRS.with_, hlive, h2]
  · simp [SRS.get_ref, hlive, h1]
  · exact hlive

/-- Claim C6 witness at a concrete input. -/
theorem C6_witness :
    (mkDerefWithLifetime Nat).Lawful ∧
    Heap.read wHeap wSRS.owner.ptr = some 5 ∧
    (SRS.with_ wHeap wSRS (mkDerefWithLifetime Nat) 0
          (fun n v ow => (n + 1, v + ow, v * ow))
        = some (1, { user := 47, owner := wSRS.owner }, 210) ∧
      SRS.get_ref wHeap wSRS (mkDerefWithLifetime Nat) (fun v ow => v + ow)
        = some 47 ∧
      SRS.derefOwner wHeap wSRS = some 5) :=
  ⟨mkDerefWithLifetime_lawful Nat, by decide,
    C6_with_invokes_once wHeap wSRS (mkDerefWithLifetime Nat)
      (mkDerefWithLifetime_lawful Nat) 5 (by decide)
      (fun v2 ow2 => (v2 + ow2, v2 * ow2)) (fun v ow => v + ow)⟩

/-- Claim C7: new boxes the owner value unchanged, sets the view to the
view type's Default value, and the container's Deref reads back that same
owner value. -/
theorem C7_new_default_and_deref {Owner V : Type} [Inhabited V]
    (h : Heap Owner) (o : Owner) :
    ((SRS.new h o : Heap Owner × SRS Owner V)).2.user = (default : V) ∧
    Heap.read ((SRS.new h o : Heap Owner × SRS Owner V)).1
        ((SRS.new h o : Heap Owner × SRS Owner V)).2.owner.ptr = some o ∧
    SRS.derefOwner ((SRS.new h o : Heap Owner × SRS Owner V)).1
        ((SRS.new h o : Heap Owner × SRS Owner V)).2 = some o := by
  refine ⟨rfl, ?_, ?_⟩
  · exact Heap.read_alloc_self h o
  · exact Heap.read_alloc_self h o

/-- Claim C8: every container operation is infallible: on a container
whose owner pointer is live (as every container built by the API keeps
it), create_with, with_, get_ref and the owner Deref all produce a value,
and new always yields a container whose owner cell is live; split is total
by its type. -/
theorem C8_operations_infallible {Owner V E Z R : Type} [Inhabited V]
    (h : Heap Owner) (o : Owner) (d : DerefWithLifetime V) (s : SRS Owner V)
    (env : E) (f : Owner → V) (g : E → V → Owner → E × V × Z)
    (r : V → Owner → R) (hlive : (Heap.read h s.owner.ptr).isSome = true) :
    (SRS.create_with h o d f).isSome = true ∧
    (SRS.with_ h s d env g).isSome = true ∧
    (SRS.get_ref h s d r).isSome = true ∧
    (SRS.derefOwner h s).isSome = true ∧
    (Heap.read ((SRS.new h o : Heap Owner × SRS Owner V)).1
        ((SRS.new h o : Heap Owner × SRS Owner V)).2.owner.ptr).isSome = true := by
  obtain ⟨ow, how⟩ := Option.isSome_iff_exists.mp hlive
  refine ⟨?_, ?_, ?_, ?_, ?_⟩
  · simp [SRS.create_with, Heap.alloc, Heap.read, lookupKey]
  · simp [SRS.with_, how]
  · simp [SRS.get_ref, how]
  · simp [SRS.derefOwner, how]
  · have h5 : Heap.read ((SRS.new h o : Heap Owner × SRS Owner V)).1
        ((SRS.new h o : Heap Owner × SRS Owner V)).2.owner.ptr = some o :=
      Heap.read_alloc_self h o
    rw [h5]
    rfl

/-- Claim C8 witness at a concrete input. -/
theorem C8_witness :
    (Heap.read wHeap wSRS.owner.ptr).isSome = true ∧
    ((SRS.create_with wHeap 7 (mkDerefWithLifetime Nat)
        (fun n => n + 1)).isSome = true ∧
      (SRS.with_ wHeap wSRS (mkDerefWithLifetime Nat) 0
          (fun e v ow => (e + 1, v + ow, v * ow))).isSome = true ∧
      (SRS.get_ref wHeap wSRS (mkDerefWithLifetime Nat)
          (fun v ow => v + ow)).isSome = true ∧
      (SRS.derefOwner wHeap wSRS).isSome = true ∧
      (Heap.read ((SRS.new wHeap 7 : Heap Nat × SRS Nat Nat)).1
          ((SRS.new wHeap 7 : Heap Nat × SRS Nat Nat)).2.owner.ptr).isSome
        = true) :=
  ⟨by decide,
    C8_operations_infallible wHeap 7 (mkDerefWithLifetime Nat) wSRS 0
      (fun n => n + 1) (fun e v ow => (e + 1, v + ow, v * ow))
      (fun v ow => v + ow) (by decide)⟩

/-- Claim C9: the built-in DerefWithLifetime impl for plain references is
the identity in each of its four retagging directions, and moving out then
moving back returns the original reference. -/
theorem C9_ref_retag_identity {Z : Type} (x : Ref Z) :
    (refDerefWithLifetime Z).deref_with_lifetime x = x ∧
    (refDerefWithLifetime Z).deref_with_lifetime_mut x = x ∧
    (refDerefWithLifetime Z).move_with_lifetime x = x ∧
    (refDerefWithLifetime Z).move_with_lifetime_back x = x ∧
    (refDerefWithLifetime Z).move_with_lifetime_back
        ((refDerefWithLifetime Z).move_with_lifetime x) = x :=
  ⟨rfl, rfl, rfl, rfl, rfl⟩

/-- Claim C10: split frees the replacement allocation the caller's slot
held (its cell is dead afterwards), does not hand that address back
through its result, and leaves the original owner's cell untouched. -/
theorem C10_split_frees_replacement {Owner V : Type} (h : Heap Owner)
    (s : SRS Owner V) (d : DerefWithLifetime V) (slot : Addr) (rv o : Owner)
    (_hslot : Heap.read h slot = some rv)
    (hlive : Heap.read h s.owner.ptr = some o) (hne : slot ≠ s.owner.ptr) :
    Heap.read (SRS.split h s d slot).1 slot = none ∧
    (SRS.split h s d slot).2.1 ≠ slot ∧
    Heap.read (SRS.split h s d slot).1 s.owner.ptr = some o := by
  refine ⟨?_, ?_, ?_⟩
  · exact Heap.read_free_self h slot
  · exact Ne.symm hne
  · rw [show (SRS.split h s d slot).1 = Heap.free h slot from rfl,
      Heap.read_free_ne h s.owner.ptr slot (Ne.symm hne)]
    exact hlive

/-- Claim C10 witness at a concrete input. -/
theorem C10_witness :
    Heap.read wHeap 1 = some 9 ∧
    Heap.read wHeap wSRS.owner.ptr = some 5 ∧
    (1 : Addr) ≠ wSRS.owner.ptr ∧
    (Heap.read (SRS.split wHeap wSRS (mkDerefWithLifetime Nat) 1).1 1 = none ∧
      (SRS.split wHeap wSRS (mkDerefWithLifetime Nat) 1).2.1 ≠ 1 ∧
      Heap.read (SRS.split wHeap wSRS (mkDerefWithLifetime Nat) 1).1
        wSRS.owner.ptr = some 5) :=
  ⟨by decide, by decide, by decide,
    C10_split_frees_replacement wHeap wSRS (mkDerefWithLifetime Nat) 1 9 5
      (by decide) (by decide) (by decide)⟩
